import Mathlib

/-!
Verification of the `vcf-svg` web component (`src/vcf-svg.js`, class `VcfSvg`).

The development shallowly embeds the component's state and operations:

* the deferred command queue (`_afterSvgReady`, `_executeUpdates`,
  `_onSvgSlotChange`) as a state with a pending list and an execution log,
  actions being modelled as opaque labels whose execution is recorded;
* the zoom-container toggle (`_setZoomContainer`, `_setZoomEvents`,
  `_zoomableChanged`, the Polymer `zoomable` property setter) as list
  manipulations on the svg root's child list;
* the camera arithmetic (`panTo`, `_convertCoords`, the `d3` zoom-event
  handler) over exact rationals;
* the descriptor pipeline (`add`, `find`, `findOne`, `findOneById`,
  `_createElement`, `_executeServerUpdates`, `_removePrivateAttributes`,
  `_getParentElement`) over a flat element store with ordered child lists.

JavaScript exceptions are modelled by returning the mutated state together
with an optional error: mutations performed before a throw persist, exactly
as in the source.
-/

namespace VcfSvg

/-! ## Deferred command queue

Source: `_afterSvgReady(callback)` pushes `callback` onto `this._updates`
when `this.draw` is unset and invokes it synchronously otherwise;
`_executeUpdates()` runs `while (this._updates.length) this._updates.shift()()`;
`_onSvgSlotChange` sets `draw` and then calls `_executeUpdates`.
Queued callbacks are modelled as `Nat` labels; invoking a callback is
modelled by appending its label to an execution log. -/

/-- State of the deferred command queue: whether `draw` is set, the pending
`_updates` list (head = oldest), and the log of executed actions. -/
structure QState where
  ready : Bool
  updates : List Nat
  executed : List Nat
deriving DecidableEq

/-- Embedding of `_afterSvgReady`: queue the action while the surface is not
ready, otherwise invoke it synchronously (record it in the log). -/
def afterSvgReady (s : QState) (a : Nat) : QState :=
  if !s.ready then { s with updates := s.updates ++ [a] }
  else { s with executed := s.executed ++ [a] }

/-- The `while (updates.length) updates.shift()()` loop of `_executeUpdates`:
repeatedly remove the head of the pending list and invoke (log) it. -/
def drain (pending done : List Nat) : List Nat × List Nat :=
  match pending with
  | [] => ([], done)
  | a :: rest => drain rest (done ++ [a])

/-- Embedding of `_executeUpdates`. -/
def executeUpdates (s : QState) : QState :=
  let r := drain s.updates s.executed
  { s with updates := r.1, executed := r.2 }

/-- Embedding of `_onSvgSlotChange` (the queue-relevant part): the surface
becomes ready (`draw` is set) and the pending queue is drained. -/
def onSvgSlotChange (s : QState) : QState :=
  executeUpdates { s with ready := true }

theorem drain_eq (pending : List Nat) :
    ∀ done, drain pending done = ([], done ++ pending) := by
  induction pending with
  | nil => intro done; simp [drain]
  | cons a rest ih => intro done; simp [drain, ih]

theorem foldl_afterSvgReady (acts : List Nat) :
    ∀ q0 done, acts.foldl afterSvgReady ⟨false, q0, done⟩
      = ⟨false, q0 ++ acts, done⟩ := by
  induction acts with
  | nil => intro q0 done; simp
  | cons a rest ih =>
      intro q0 done
      show rest.foldl afterSvgReady (afterSvgReady ⟨false, q0, done⟩ a) = _
      rw [show afterSvgReady ⟨false, q0, done⟩ a = ⟨false, q0 ++ [a], done⟩ from rfl, ih]
      simp

/-- C1: structural commands issued while `draw` is unset are all queued (in
submission order) and none is executed; once the surface becomes ready they
all execute, in original order, exactly once each, and the queue is left
empty; a command issued while the surface is ready executes synchronously and
leaves the queue unchanged. -/
theorem C1_deferred_queue (acts q0 done : List Nat) (s : QState) (a : Nat) :
    (acts.foldl afterSvgReady ⟨false, q0, done⟩).updates = q0 ++ acts
    ∧ (acts.foldl afterSvgReady ⟨false, q0, done⟩).executed = done
    ∧ onSvgSlotChange (acts.foldl afterSvgReady ⟨false, q0, done⟩)
        = ⟨true, [], done ++ (q0 ++ acts)⟩
    ∧ (s.ready = true → afterSvgReady s a = { s with executed := s.executed ++ [a] }) := by
  rw [foldl_afterSvgReady]
  refine ⟨rfl, rfl, ?_, ?_⟩
  · simp [onSvgSlotChange, executeUpdates, drain_eq]
  · intro h
    simp [afterSvgReady, h]

/-- Concrete run of `C1_deferred_queue`: three commands queued before the
surface is ready execute in order on readiness, and a command issued on a
ready surface runs synchronously. -/
theorem C1_deferred_queue_witness :
    onSvgSlotChange (([1, 2, 3] : List Nat).foldl afterSvgReady ⟨false, [], []⟩)
      = ⟨true, [], [1, 2, 3]⟩
    ∧ afterSvgReady ⟨true, [], [5]⟩ 7 = ⟨true, [], [5, 7]⟩ :=
  ⟨(C1_deferred_queue [1, 2, 3] [] [] ⟨true, [], [5]⟩ 7).2.2.1,
   (C1_deferred_queue [1, 2, 3] [] [] ⟨true, [], [5]⟩ 7).2.2.2 rfl⟩

/-! ## Camera transform and zoom-container toggle

Source: `_setZoomContainer(zoomable)` wraps the svg root's children into a
`<g id="zoomContainer">` group on enable and unwraps them on disable;
`_setZoomEvents(zoomable)` resets `_transform` to `zoomIdentity` and attaches
the d3 zoom behavior on enable, and detaches all zoom listeners on disable;
`_zoomableChanged(zoomable, draw)` runs both when `draw` and `_svg` exist.
The `zoomable` flag is a Polymer-declared property: Polymer property setters
are dirty-checked, so assigning the value the property already holds fires no
observers. Children are modelled by their ids (`Nat`). -/

/-- A d3 zoom transform: uniform scale `k` and translation `(x, y)`. -/
structure Transform where
  k : ℚ
  x : ℚ
  y : ℚ
deriving DecidableEq

/-- The identity transform `d3.zoomIdentity`: scale 1, translation (0, 0). -/
def zoomIdentity : Transform := { k := 1, x := 0, y := 0 }

/-- d3's `transform.translate(dx, dy)`: translation composed in the scaled
coordinate system. -/
def Transform.translate (t : Transform) (dx dy : ℚ) : Transform :=
  { k := t.k, x := t.x + t.k * dx, y := t.y + t.k * dy }

/-- d3's `transform.scale(m)`: multiply the scale, keep the translation. -/
def Transform.scale (t : Transform) (m : ℚ) : Transform :=
  { k := t.k * m, x := t.x, y := t.y }

/-- Zoom-related component state: readiness (`draw` and `_svg` set), the
`zoomable` property, the ordered child ids of the `<svg>` root, the zoom
container (its id and its ordered child ids) when present, whether `draw`
points at the group, the stored `_transform`, whether the d3 zoom listeners
are attached, and the next fresh element id. -/
structure ZoomState where
  ready : Bool
  zoomable : Bool
  svgChildren : List Nat
  zoomContainer : Option (Nat × List Nat)
  drawOnGroup : Bool
  transform : Transform
  zoomEvents : Bool
  nextId : Nat
deriving DecidableEq

/-- Embedding of `_setZoomContainer`. Enable (no group yet): a fresh group is
appended as a child of the svg root, every child of the root other than the
group itself is moved into the group (in order), and `draw` is repointed at
the group. Disable (group present): every child of the group other than the
group itself is moved back under the svg root (in order), the group is
removed, and `draw` is repointed at the svg root. Otherwise a no-op. -/
def setZoomContainer (zoomable : Bool) (s : ZoomState) : ZoomState :=
  match zoomable, s.zoomContainer with
  | true, none =>
      let gid := s.nextId
      let snapshot := s.svgChildren ++ [gid]
      { s with
        svgChildren := snapshot.filter (fun c => c == gid),
        zoomContainer := some (gid, snapshot.filter (fun c => c != gid)),
        drawOnGroup := true,
        nextId := s.nextId + 1 }
  | false, some (gid, kids) =>
      { s with
        svgChildren := (s.svgChildren ++ kids.filter (fun c => c != gid)).filter
          (fun c => c != gid),
        zoomContainer := none,
        drawOnGroup := false }
  | _, _ => s

/-- Embedding of `_setZoomEvents`: enabling resets `_transform` to
`zoomIdentity` and attaches the d3 zoom behavior; disabling detaches the
zoom listeners. -/
def setZoomEvents (zoomable : Bool) (s : ZoomState) : ZoomState :=
  if zoomable then { s with transform := zoomIdentity, zoomEvents := true }
  else { s with zoomEvents := false }

/-- Embedding of `_zoomableChanged(zoomable, draw)`: when `draw` and `_svg`
exist, reconfigure the container and then the zoom events. -/
def zoomableChanged (zoomable : Bool) (s : ZoomState) : ZoomState :=
  if s.ready then setZoomEvents zoomable (setZoomContainer zoomable s) else s

/-- The public `zoomable` property setter. Polymer dirty-checks property
assignments: writing the value the property already holds fires no observers;
otherwise the `_zoomableChanged` observer runs with the new value. -/
def setZoomable (b : Bool) (s : ZoomState) : ZoomState :=
  if s.zoomable == b then s else zoomableChanged b { s with zoomable := b }

/-- C3: wrapping the root's children `C1..Cn` into the zoom group and then
unwrapping restores exactly `C1..Cn` as direct children of the root, in the
original order, with the temporary group removed. (The fresh group id does
not collide with an existing child id.) -/
theorem C3_zoom_toggle_reversible (s : ZoomState)
    (h1 : s.zoomContainer = none) (h2 : s.nextId ∉ s.svgChildren) :
    (setZoomContainer false (setZoomContainer true s)).svgChildren = s.svgChildren
    ∧ (setZoomContainer false (setZoomContainer true s)).zoomContainer = none := by
  have hfilter : s.svgChildren.filter (fun c => c != s.nextId) = s.svgChildren := by
    refine List.filter_eq_self.mpr ?_
    intro c hc
    simp only [bne_iff_ne, ne_eq, decide_eq_true_eq]
    exact fun hcontra => h2 (hcontra ▸ hc)
  have hfilter2 : s.svgChildren.filter (fun c => c == s.nextId) = [] := by
    refine List.filter_eq_nil_iff.mpr ?_
    intro c hc
    simp only [beq_iff_eq]
    exact fun hcontra => h2 (hcontra ▸ hc)
  simp only [setZoomContainer, h1, List.filter_append, hfilter, hfilter2]
  constructor
  · simp [hfilter]
  · trivial

/-- Concrete run of `C3_zoom_toggle_reversible` on a root with three
children. -/
theorem C3_zoom_toggle_reversible_witness :
    (setZoomContainer false (setZoomContainer true
        ⟨true, false, [4, 7, 9], none, false, zoomIdentity, false, 10⟩)).svgChildren
      = [4, 7, 9]
    ∧ (setZoomContainer false (setZoomContainer true
        ⟨true, false, [4, 7, 9], none, false, zoomIdentity, false, 10⟩)).zoomContainer
      = none :=
  C3_zoom_toggle_reversible ⟨true, false, [4, 7, 9], none, false, zoomIdentity, false, 10⟩
    rfl (by decide)

/-- C8: re-enabling zoom while it is already enabled is an idempotent
structural no-op. Setting `zoomable` to `true` while it is already `true` is
dirty-checked away by Polymer, so the whole state — including the stored
transform — is untouched; and `_setZoomContainer(true)` with the group
already present keeps the existing group (no second group, no re-wrapping). -/
theorem C8_enable_zoom_idempotent (s t : ZoomState) (g : Nat) (kids : List Nat)
    (h1 : s.zoomable = true) (h2 : t.zoomContainer = some (g, kids)) :
    setZoomable true s = s ∧ setZoomContainer true t = t := by
  constructor
  · simp [setZoomable, h1]
  · simp [setZoomContainer, h2]

/-- Concrete run of `C8_enable_zoom_idempotent` on an enabled state with a
non-identity stored transform: re-enabling keeps the group and does not reset
the transform. -/
theorem C8_enable_zoom_idempotent_witness :
    setZoomable true
        ⟨true, true, [10], some (10, [4, 7]), true, ⟨2, 30, 40⟩, true, 11⟩
      = ⟨true, true, [10], some (10, [4, 7]), true, ⟨2, 30, 40⟩, true, 11⟩
    ∧ setZoomContainer true
        ⟨true, true, [10], some (10, [4, 7]), true, ⟨2, 30, 40⟩, true, 11⟩
      = ⟨true, true, [10], some (10, [4, 7]), true, ⟨2, 30, 40⟩, true, 11⟩ :=
  C8_enable_zoom_idempotent
    ⟨true, true, [10], some (10, [4, 7]), true, ⟨2, 30, 40⟩, true, 11⟩
    ⟨true, true, [10], some (10, [4, 7]), true, ⟨2, 30, 40⟩, true, 11⟩
    10 [4, 7] rfl rfl

/-! ## Camera arithmetic: `panTo`, `_convertCoords`, the d3 zoom handler

Source: `panTo(selector, scale, duration)` looks the element up inside the
zoom container; when no element matches it does nothing at all. Otherwise it
computes a target transform from the viewbox, the element's bounding box and
its screen matrix, and plays it through `this._zoom.transform`. d3's
`zoom.transform` sets the given transform directly — per the d3-zoom
documentation it does not enforce the configured `scaleExtent`, which only
constrains pointer gestures — and the component's `'zoom'` handler stores
`event.transform` into `_transform` unmodified and mirrors it onto the zoom
container's `transform` attribute, so at the end of the transition the
stored transform equals the computed one. All geometry is exact rational
arithmetic. -/

/-- A bounding box as returned by `getBBox()` / `viewbox()`. -/
structure Box where
  x : ℚ
  y : ℚ
  width : ℚ
  height : ℚ
deriving DecidableEq

/-- A 2D affine matrix as returned by `getScreenCTM()`. -/
structure Matrix2D where
  a : ℚ
  b : ℚ
  c : ℚ
  d : ℚ
  e : ℚ
  f : ℚ
deriving DecidableEq

/-- An element inside the zoom container, with the geometry `panTo` reads:
its `getBBox()` box and its `getScreenCTM()` matrix. -/
structure PanElem where
  eid : Nat
  bbox : Box
  ctm : Matrix2D
deriving DecidableEq

/-- Camera-relevant component state: the stored `_transform`, the `transform`
attribute currently set on the zoom container, the elements inside the zoom
container (in document order), the ids of the svg root's direct children, and
the svg node geometry read by `panTo` and `_convertCoords`. -/
structure PanState where
  transform : Transform
  groupTransform : Transform
  groupElems : List PanElem
  svgChildren : List Nat
  viewbox : Box
  clientWidth : ℚ
  clientHeight : ℚ
  offsetLeft : ℚ
  offsetTop : ℚ
deriving DecidableEq

/-- Embedding of `_convertCoords(element)`: project the element's bounding-box
origin through its screen matrix, subtract the svg node's client offset and
rescale by the viewbox/client size ratio. -/
def convertCoords (s : PanState) (el : PanElem) : ℚ × ℚ :=
  let widthFactor := s.viewbox.width / s.clientWidth
  let heightFactor := s.viewbox.height / s.clientHeight
  let m := el.ctm
  let px := el.bbox.x
  let py := el.bbox.y
  ((m.a * px + m.c * py + m.e - s.offsetLeft) * widthFactor,
   (m.b * px + m.d * py + m.f - s.offsetTop) * heightFactor)

/-- The `padding = 40` logical units used by `panTo`. -/
def padding : ℚ := 40

/-- Embedding of `panTo(selector, scale)`. When no element in the zoom
container matches the selector, nothing happens. Otherwise the target
transform is computed exactly as in the source and — through
`zoom.transform` and the `'zoom'` handler — becomes the stored transform and
the group's `transform` attribute at the end of the transition. -/
def panTo (s : PanState) (sel : PanElem → Bool) (scale : Bool) : PanState :=
  match s.groupElems.find? sel with
  | none => s
  | some el =>
      let wRat := s.viewbox.width / (el.bbox.width + padding * 2)
      let hRat := s.viewbox.height / (el.bbox.height + padding * 2)
      let size := (if hRat < wRat then hRat else wRat) / s.transform.k
      let coords := convertCoords s el
      let transformX := -(coords.1 - s.transform.x) * size + padding
      let transformY := -(coords.2 - s.transform.y) * size + padding
      let offsetX := (transformX - s.transform.x) / s.transform.k
      let offsetY := (transformY - s.transform.y) / s.transform.k
      let tr0 := s.transform.translate offsetX offsetY
      let tr := if scale then tr0.scale size else tr0
      { s with transform := tr, groupTransform := tr }

/-- d3's scale constraint for pointer gestures: the configured
`scaleExtent([0.01, 5])` clamps a gesture's scale to that interval before
the `'zoom'` event is emitted. -/
def constrainScale (k : ℚ) : ℚ := max (1 / 100) (min 5 k)

/-- The component's `'zoom'` handler: store `event.transform` (or
`zoomIdentity` when the event carries none) and mirror it onto the zoom
container's `transform` attribute. -/
def zoomHandler (s : PanState) (evtTransform : Option Transform) : PanState :=
  let t := evtTransform.getD zoomIdentity
  { s with transform := t, groupTransform := t }

/-- A pointer gesture reporting a raw transform: d3 clamps its scale to the
configured extent and emits the `'zoom'` event, whose transform the
component stores. -/
def gestureZoom (s : PanState) (raw : Transform) : PanState :=
  zoomHandler s (some { raw with k := constrainScale raw.k })

/-- C7: `panTo` with a selector matching no element in the zoom container is
a silent no-op — no error, and the stored transform, the zoom group's
transform attribute, its elements and the surface children are all
unchanged. -/
theorem C7_panTo_noop (s : PanState) (sel : PanElem → Bool) (scale : Bool)
    (h : s.groupElems.find? sel = none) :
    panTo s sel scale = s := by
  simp [panTo, h]

/-- Concrete run of `C7_panTo_noop`: panning to an id present nowhere in the
zoom container leaves the state untouched. -/
theorem C7_panTo_noop_witness :
    panTo
      ⟨zoomIdentity, zoomIdentity,
        [⟨3, ⟨0, 0, 10, 10⟩, ⟨1, 0, 0, 1, 0, 0⟩⟩], [0], ⟨0, 0, 900, 900⟩,
        900, 900, 0, 0⟩
      (fun el => el.eid == 99) true
    = ⟨zoomIdentity, zoomIdentity,
        [⟨3, ⟨0, 0, 10, 10⟩, ⟨1, 0, 0, 1, 0, 0⟩⟩], [0], ⟨0, 0, 900, 900⟩,
        900, 900, 0, 0⟩ :=
  C7_panTo_noop
    ⟨zoomIdentity, zoomIdentity,
      [⟨3, ⟨0, 0, 10, 10⟩, ⟨1, 0, 0, 1, 0, 0⟩⟩], [0], ⟨0, 0, 900, 900⟩,
      900, 900, 0, 0⟩
    (fun el => el.eid == 99) true (by decide)

/-- Counterexample to C2 as stated: from an in-range state (scale 1),
`panTo` on a small element computes and stores a transform whose scale is
`min(widthRatio, heightRatio) = 900 / (10 + 80) = 10`, outside `[0.01, 5]` —
the scale-clamp invariant does not extend to the transform computed by
`panTo`. -/
theorem C2_cex_panTo_escapes_clamp :
    (panTo
        ⟨zoomIdentity, zoomIdentity,
          [⟨0, ⟨0, 0, 10, 10⟩, ⟨1, 0, 0, 1, 0, 0⟩⟩], [0], ⟨0, 0, 900, 900⟩,
          900, 900, 0, 0⟩
        (fun el => el.eid == 0) true).transform.k = 10
    ∧ ¬ ((panTo
        ⟨zoomIdentity, zoomIdentity,
          [⟨0, ⟨0, 0, 10, 10⟩, ⟨1, 0, 0, 1, 0, 0⟩⟩], [0], ⟨0, 0, 900, 900⟩,
          900, 900, 0, 0⟩
        (fun el => el.eid == 0) true).transform.k ≤ 5) := by
  constructor <;>
  · simp only [panTo, convertCoords, padding, zoomIdentity, Transform.translate,
      Transform.scale, List.find?]
    norm_num

/-- C2 (amended): every gesture-reported transform is stored with its scale
clamped to `[0.01, 5]` by the configured scale extent; the transform computed
by `panTo` is applied through `zoom.transform`, which does not clamp, so its
scale may lie outside that interval. -/
theorem C2_gesture_scale_clamped (s : PanState) (raw : Transform) :
    (1 : ℚ) / 100 ≤ (gestureZoom s raw).transform.k
    ∧ (gestureZoom s raw).transform.k ≤ 5 := by
  refine ⟨le_max_left _ _, ?_⟩
  simp only [gestureZoom, zoomHandler, constrainScale, Option.getD_some]
  exact max_le (by norm_num) (min_le_left _ _)

/-! ## Element surface and the descriptor pipeline

Source: `add`, `update`, `find`, `findOne`, `findOneById`,
`_getParentElement`, `_createElement`, `_executeServerUpdates`,
`_removePrivateAttributes`. The svg surface is a flat store of elements with
ordered child-id lists plus the root's ordered child-id list. A descriptor is
the JavaScript object consumed from the Java API: an ordered association list
from keys to values. svg.js element constructors (`parentElement[name]`)
create a fresh element appended to the parent, recording the constructor name
and arguments; `__updates` method invocations on an element are recorded in
the element's call log (their svg.js effects live outside the surface
structure); listener wiring (`_setEventListeners`) manipulates DOM listeners
only and is not part of the surface state. -/

/-- One entry of a descriptor's `__updates` list:
`{"function": name, "args": [...]}`. -/
structure UpdateCall where
  fname : String
  args : List String
deriving DecidableEq

/-- A descriptor value: a plain string attribute value, the `__updates`
list, the `__elements` id list, or the `__constructorArgs` list. -/
inductive JsValue where
  | str (v : String)
  | upds (l : List UpdateCall)
  | ids (l : List String)
  | cargs (l : List String)
deriving DecidableEq

/-- An `add`/`update` descriptor: the keys of the JavaScript object, in
insertion order. -/
abbrev Descriptor := List (String × JsValue)

def ctorKey : String := "__constructor"

def ctorArgsKey : String := "__constructorArgs"

def updatesKey : String := "__updates"

def elementsKey : String := "__elements"

def idAttr : String := "id"

def emptyStr : String := ""

/-- Property lookup on a descriptor object: the first binding of the key. -/
def lookupKey (d : Descriptor) (k : String) : Option JsValue :=
  (d.find? (fun p => p.1 == k)).map (fun p => p.2)

/-- The `attributes.__constructor` read in `_createElement`, with JavaScript
truthiness: an absent key and the empty string are both falsy. -/
def getCtorName (d : Descriptor) : Option String :=
  match lookupKey d ctorKey with
  | some (JsValue.str v) => if v == emptyStr then none else some v
  | _ => none

/-- The `attributes.__constructorArgs` read in `_createElement`. -/
def getCtorArgs (d : Descriptor) : Option (List String) :=
  match lookupKey d ctorArgsKey with
  | some (JsValue.cargs l) => some l
  | _ => none

/-- The `attributes.__updates` read in `_executeServerUpdates`: `none` when
the key is absent (in JavaScript the later `updates.length` then throws). -/
def getUpdates (d : Descriptor) : Option (List UpdateCall) :=
  match lookupKey d updatesKey with
  | some (JsValue.upds l) => some l
  | _ => none

/-- The `attributes.__elements` read in `_executeServerUpdates`. -/
def getElements (d : Descriptor) : Option (List String) :=
  match lookupKey d elementsKey with
  | some (JsValue.ids l) => some l
  | _ => none

/-- Does the character list contain two consecutive underscores? -/
def dunderChars : List Char → Bool
  | '_' :: '_' :: _ => true
  | _ :: rest => dunderChars rest
  | [] => false

/-- JavaScript's `key.includes('__')`. -/
def hasDunder (k : String) : Bool := dunderChars k.data

/-- Embedding of `_removePrivateAttributes`: delete every key containing a
double underscore. -/
def removePrivateAttributes (d : Descriptor) : Descriptor :=
  d.filter (fun p => !(hasDunder p.1))

/-- An svg element: its identity, how it was constructed (svg.js constructor
name and positional arguments), its attribute map, the log of `__updates`
method calls applied to it, and its ordered child element ids. -/
structure Elem where
  eid : Nat
  ctorName : String
  ctorArgs : List String
  attrs : List (String × JsValue)
  calls : List UpdateCall
  kids : List Nat
deriving DecidableEq

/-- The svg surface: the element store, the ordered child ids of the root
`<svg>`, the constructor names its containers support (the svg.js prototype
methods such as `rect`), and the next fresh element id. -/
structure Surface where
  elems : List Elem
  rootKids : List Nat
  ctors : List String
  nextId : Nat
deriving DecidableEq

/-- The element record stored under an internal id. -/
def elemById (s : Surface) (i : Nat) : Option Elem :=
  s.elems.find? (fun e => e.eid == i)

/-- Attribute lookup in an attribute map. -/
def attrLookup (l : List (String × JsValue)) (k : String) : Option JsValue :=
  (l.find? (fun p => p.1 == k)).map (fun p => p.2)

/-- `element.attr(key)`: the attribute currently set on the element. -/
def attrOf (e : Elem) (k : String) : Option JsValue :=
  attrLookup e.attrs k

/-- `element.attr(key, value)`: overwrite the binding when the key is
present, append it otherwise. -/
def setAttr (l : List (String × JsValue)) (k : String) (v : JsValue) :
    List (String × JsValue) :=
  match l with
  | [] => [(k, v)]
  | p :: rest => if p.1 == k then (k, v) :: rest else p :: setAttr rest k v

/-- `element.attr(object)`: set every binding of the object, in order. -/
def applyAttrs (l : List (String × JsValue)) (d : Descriptor) :
    List (String × JsValue) :=
  d.foldl (fun a p => setAttr a p.1 p.2) l

/-- The elements of the subtrees rooted at the given child ids, in document
order. The fuel bounds the recursion depth; callers pass the store size,
which bounds the depth of any acyclic surface. -/
def subtreeList (s : Surface) : Nat → List Nat → List Elem
  | 0, _ => []
  | fuel + 1, ids =>
      (ids.map (fun i =>
        match elemById s i with
        | some e => e :: subtreeList s fuel e.kids
        | none => [])).flatten

/-- All elements of the surface, in document order (the subtree of the
root). -/
def allElems (s : Surface) : List Elem := subtreeList s s.elems.length s.rootKids

/-- The CSS selector `[id="i"]` used by `findOneById`: matches elements
whose `id` attribute is the given string. -/
def byId (i : String) : Elem → Bool :=
  fun e => attrOf e idAttr == some (JsValue.str i)

/-- The errors the command surface throws: `SVG_NOT_READY`, `Element with
selector ... not found.`, the two `constructor undefined` messages of
`_createElement`, and the `TypeError` raised by `updates.length` when
`__updates` is absent. -/
inductive SvgError where
  | svgNotReady
  | elementNotFound
  | constructorUndefined (name : Option String)
  | undefinedUpdates
deriving DecidableEq

/-- A resolved parent: the root `<svg>` (`this.draw`) or a located element. -/
inductive ParentRef where
  | root
  | el (e : Elem)
deriving DecidableEq

/-- The elements searched under a parent (its descendants, in document
order). -/
def scopeElems (s : Surface) (parent : ParentRef) : List Elem :=
  match parent with
  | ParentRef.root => allElems s
  | ParentRef.el e => subtreeList s s.elems.length e.kids

/-- Embedding of `_getParentElement`: the root when no parent id is given,
otherwise `findOneById(parentElementId)`, which throws when no element has
that id. -/
def getParentElement (s : Surface) (pid : Option String) :
    Except SvgError ParentRef :=
  match pid with
  | none => Except.ok ParentRef.root
  | some i =>
      match ((allElems s).filter (byId i)).head? with
      | some e => Except.ok (ParentRef.el e)
      | none => Except.error SvgError.elementNotFound

/-- The component as the lookup operations see it: `draw` is unset until the
surface is attached. -/
structure Comp where
  draw : Option Surface

/-- Embedding of `find(selector, parentElementId)`: throws `SVG_NOT_READY`
when `draw` is unset, otherwise returns the list of matching descendants of
the resolved parent (empty when none match). -/
def find (c : Comp) (sel : Elem → Bool) (pid : Option String) :
    Except SvgError (List Elem) :=
  match c.draw with
  | none => Except.error SvgError.svgNotReady
  | some s =>
      match getParentElement s pid with
      | Except.error err => Except.error err
      | Except.ok parent => Except.ok ((scopeElems s parent).filter sel)

/-- Embedding of `findOne(selector, parentElementId)`: throws `SVG_NOT_READY`
when `draw` is unset, returns the first matching descendant of the resolved
parent, and throws `Element ... not found` when none matches. -/
def findOne (c : Comp) (sel : Elem → Bool) (pid : Option String) :
    Except SvgError Elem :=
  match c.draw with
  | none => Except.error SvgError.svgNotReady
  | some s =>
      match getParentElement s pid with
      | Except.error err => Except.error err
      | Except.ok parent =>
          match ((scopeElems s parent).filter sel).head? with
          | some e => Except.ok e
          | none => Except.error SvgError.elementNotFound

/-- Embedding of `findOneById(id)`: `findOne` with the selector
`[id="id"]`. -/
def findOneById (c : Comp) (i : String) : Except SvgError Elem :=
  findOne c (byId i) none

/-- Rewrite the element stored under an id (the rewrite keeps the id). -/
def modifyElem (s : Surface) (i : Nat) (f : Elem → Elem) : Surface :=
  { s with elems := s.elems.map (fun e => if e.eid == i then f e else e) }

/-- Detach an element from whatever parent holds it (`appendChild` moves a
node: it first leaves its old parent). -/
def detachEl (s : Surface) (i : Nat) : Surface :=
  { s with
    elems := s.elems.map (fun e => { e with kids := e.kids.filter (fun c => c != i) }),
    rootKids := s.rootKids.filter (fun c => c != i) }

/-- Append a child id under a resolved parent. -/
def appendKid (s : Surface) (parent : ParentRef) (i : Nat) : Surface :=
  match parent with
  | ParentRef.root => { s with rootKids := s.rootKids ++ [i] }
  | ParentRef.el pe => modifyElem s pe.eid (fun e => { e with kids := e.kids ++ [i] })

/-- Append a child id under the element with the given id. -/
def appendKidToElem (s : Surface) (target i : Nat) : Surface :=
  modifyElem s target (fun e => { e with kids := e.kids ++ [i] })

/-- Record an element in the store when it is not yet there (a `Shape`
instance handed to `add` may be brand new). -/
def insertIfAbsent (s : Surface) (e : Elem) : Surface :=
  if (s.elems.find? (fun x => x.eid == e.eid)).isSome then s
  else { s with elems := s.elems ++ [e] }

/-- `parentElement.add(element)` on a `Shape` instance: record the element,
detach it from any previous parent and append it under the parent. -/
def addShape (s : Surface) (parent : ParentRef) (e : Elem) : Surface :=
  appendKid (detachEl (insertIfAbsent s e) e.eid) parent e.eid

/-- The ordered child ids a resolved parent currently has. -/
def kidsOf (s : Surface) (parent : ParentRef) : List Nat :=
  match parent with
  | ParentRef.root => s.rootKids
  | ParentRef.el pe =>
      match elemById s pe.eid with
      | some e => e.kids
      | none => []

/-- A freshly constructed element: no attributes, no calls, no children. -/
def mkElem (i : Nat) (cname : String) (cargs : List String) : Elem :=
  { eid := i, ctorName := cname, ctorArgs := cargs, attrs := [], calls := [], kids := [] }

/-- `elementConstructor.call(parentElement, ...args)`: svg.js container
constructors create a fresh element and append it to the parent. -/
def constructStep (s : Surface) (parent : ParentRef) (cname : String)
    (cargs : List String) : Surface :=
  let s1 := { s with elems := s.elems ++ [mkElem s.nextId cname cargs], nextId := s.nextId + 1 }
  appendKid s1 parent s.nextId

/-- The `__elements` loop of `_executeServerUpdates`: each listed id is
resolved with `findOneById` — which throws when it is missing, aborting the
loop with the moves so far kept — and the found element is moved under the
target element. -/
def reparentEls (s : Surface) (target : Nat) :
    List String → Surface × Option SvgError
  | [] => (s, none)
  | i :: rest =>
      match ((allElems s).filter (byId i)).head? with
      | none => (s, some SvgError.elementNotFound)
      | some el => reparentEls (appendKidToElem (detachEl s el.eid) target el.eid)
          target rest

/-- The `__elements` handling of `_executeServerUpdates`: skipped entirely
when the key is absent. -/
def reparentStep (s : Surface) (target : Nat) (d : Descriptor) :
    Surface × Option SvgError :=
  match getElements d with
  | none => (s, none)
  | some l => reparentEls s target l

/-- The `__updates` loop: `element[update.function](...update.args)` for each
entry in order, recorded in the element's call log. -/
def runUpdates (s : Surface) (target : Nat) (us : List UpdateCall) : Surface :=
  us.foldl (fun acc u => modifyElem acc target (fun e => { e with calls := e.calls ++ [u] })) s

/-- `element.attr(attributes)` on the target element. -/
def setAttrsOnElem (s : Surface) (target : Nat) (d : Descriptor) : Surface :=
  modifyElem s target (fun e => { e with attrs := applyAttrs e.attrs d })

/-- Embedding of `_executeServerUpdates(element, attributes)`: reparent the
`__elements`, strip every double-underscore key, apply the remaining plain
attributes, then run the `__updates` list — whose absence makes
`updates.length` throw a `TypeError` *after* the preceding mutations.
(The source reads `__updates` and `__elements` before stripping; listener
wiring is outside the modelled state.) -/
def executeServerUpdates (s : Surface) (target : Nat) (d : Descriptor) :
    Surface × Option SvgError :=
  match reparentStep s target d with
  | (s1, some err) => (s1, some err)
  | (s1, none) =>
      let s2 := setAttrsOnElem s1 target (removePrivateAttributes d)
      match getUpdates d with
      | none => (s2, some SvgError.undefinedUpdates)
      | some us => (runUpdates s2 target us, none)

/-- Embedding of `_createElement(attributes, parentElement)`: a falsy
`__constructor` throws `'__constructor' undefined`, an unsupported one throws
`'name' constructor undefined`, otherwise the element is constructed and the
descriptor applied to it. -/
def createElement (s : Surface) (d : Descriptor) (parent : ParentRef) :
    Surface × Option SvgError :=
  match getCtorName d with
  | some cname =>
      if s.ctors.contains cname then
        executeServerUpdates (constructStep s parent cname ((getCtorArgs d).getD []))
          s.nextId d
      else (s, some (SvgError.constructorUndefined (some cname)))
  | none => (s, some (SvgError.constructorUndefined none))

/-- The argument of `add`: a `Shape` instance or a plain attributes object. -/
inductive AddArg where
  | shape (e : Elem)
  | attrsObj (d : Descriptor)

/-- Embedding of the queued action of `add(element, parentElementId)`:
resolve the parent, then either append the `Shape` instance directly or run
the descriptor pipeline. -/
def addAction (s : Surface) (a : AddArg) (pid : Option String) :
    Surface × Option SvgError :=
  match getParentElement s pid with
  | Except.error err => (s, some err)
  | Except.ok parent =>
      match a with
      | AddArg.shape e => (addShape s parent e, none)
      | AddArg.attrsObj d => createElement s d parent

/-! ## Lookup error behavior (C4) -/

/-- C4: before attachment (`draw` unset) `find`, `findOne` and `findOneById`
throw `SVG_NOT_READY` immediately; once attached, `findOne` and
`findOneById` throw element-not-found when zero elements match, while `find`
returns an empty list without error. -/
theorem C4_lookup_errors (c : Comp) (sel : Elem → Bool) (s : Surface) (i : String) :
    (c.draw = none →
      find c sel none = Except.error SvgError.svgNotReady
      ∧ findOne c sel none = Except.error SvgError.svgNotReady
      ∧ findOneById c i = Except.error SvgError.svgNotReady)
    ∧ (c.draw = some s → (allElems s).filter sel = [] →
      find c sel none = Except.ok []
      ∧ findOne c sel none = Except.error SvgError.elementNotFound)
    ∧ (c.draw = some s → (allElems s).filter (byId i) = [] →
      findOneById c i = Except.error SvgError.elementNotFound) := by
  refine ⟨?_, ?_, ?_⟩
  · intro h
    exact ⟨by simp [find, h], by simp [findOne, h], by simp [findOneById, findOne, h]⟩
  · intro h hf
    constructor
    · simp [find, h, getParentElement, scopeElems, hf]
    · simp [findOne, h, getParentElement, scopeElems, hf]
  · intro h hf
    simp [findOneById, findOne, h, getParentElement, scopeElems, hf]

def sampleElem : Elem :=
  { eid := 0, ctorName := "rect", ctorArgs := [], attrs := [(idAttr, JsValue.str ("r1"))],
    calls := [], kids := [] }

def sampleSurface : Surface :=
  { elems := [sampleElem], rootKids := [0], ctors := [("rect")], nextId := 1 }

/-- Concrete run of `C4_lookup_errors`: lookups on a detached component throw
`SVG_NOT_READY`; on an attached surface holding one `r1` rectangle, lookups
for `r2` error (`findOne`, `findOneById`) or return the empty list
(`find`). -/
theorem C4_lookup_errors_witness :
    findOne (Comp.mk none) (byId ("r2")) none = Except.error SvgError.svgNotReady
    ∧ find (Comp.mk (some sampleSurface)) (byId ("r2")) none = Except.ok []
    ∧ findOne (Comp.mk (some sampleSurface)) (byId ("r2")) none
        = Except.error SvgError.elementNotFound
    ∧ findOneById (Comp.mk (some sampleSurface)) ("r2")
        = Except.error SvgError.elementNotFound :=
  ⟨((C4_lookup_errors (Comp.mk none) (byId ("r2")) sampleSurface ("r2")).1 rfl).2.1,
   ((C4_lookup_errors (Comp.mk (some sampleSurface)) (byId ("r2")) sampleSurface
      ("r2")).2.1 rfl (by decide)).1,
   ((C4_lookup_errors (Comp.mk (some sampleSurface)) (byId ("r2")) sampleSurface
      ("r2")).2.1 rfl (by decide)).2,
   (C4_lookup_errors (Comp.mk (some sampleSurface)) (byId ("r2")) sampleSurface
      ("r2")).2.2 rfl (by decide)⟩

/-! ## Missing or unsupported constructor (C5) -/

/-- C5: an `add` descriptor that omits `__constructor` (or carries a falsy
one), or names a constructor the resolved parent does not support, makes the
operation throw constructor-undefined with the surface left exactly as it
was — no element created, no attribute applied. -/
theorem C5_missing_ctor (s : Surface) (d : Descriptor) (pid : Option String)
    (parent : ParentRef) (hp : getParentElement s pid = Except.ok parent) :
    (getCtorName d = none →
      addAction s (AddArg.attrsObj d) pid = (s, some (SvgError.constructorUndefined none)))
    ∧ (∀ cname, getCtorName d = some cname → s.ctors.contains cname = false →
      addAction s (AddArg.attrsObj d) pid
        = (s, some (SvgError.constructorUndefined (some cname)))) := by
  constructor
  · intro h
    simp [addAction, hp, createElement, h]
  · intro cname h hc
    have hc2 : cname ∉ s.ctors := by simpa using hc
    simp [addAction, hp, createElement, h, hc2]

/-- Concrete run of `C5_missing_ctor`: `add({}, undefined)` throws
`'__constructor' undefined` and `add({__constructor: 'blob'})` throws
`'blob' constructor undefined`, both leaving the surface untouched. -/
theorem C5_missing_ctor_witness :
    addAction sampleSurface (AddArg.attrsObj []) none
      = (sampleSurface, some (SvgError.constructorUndefined none))
    ∧ addAction sampleSurface (AddArg.attrsObj [(ctorKey, JsValue.str ("blob"))]) none
      = (sampleSurface, some (SvgError.constructorUndefined (some ("blob")))) :=
  ⟨(C5_missing_ctor sampleSurface [] none ParentRef.root rfl).1 rfl,
   (C5_missing_ctor sampleSurface [(ctorKey, JsValue.str ("blob"))] none ParentRef.root
      rfl).2 ("blob") (by decide) (by decide)⟩

/-! ## Attribute-map lemmas -/

theorem attrLookup_cons (p : String × JsValue) (tail : List (String × JsValue)) (k : String) :
    attrLookup (p :: tail) k = if p.1 == k then some p.2 else attrLookup tail k := by
  by_cases h : p.1 == k <;> simp [attrLookup, List.find?, h]

theorem attrLookup_setAttr_self (l : List (String × JsValue)) (k : String) (v : JsValue) :
    attrLookup (setAttr l k v) k = some v := by
  induction l with
  | nil => simp [setAttr, attrLookup_cons]
  | cons p rest ih =>
      by_cases h : p.1 == k
      · simp [setAttr, h, attrLookup_cons]
      · simp [setAttr, h, attrLookup_cons, ih]

theorem attrLookup_setAttr_ne (l : List (String × JsValue)) (k2 k : String) (v : JsValue)
    (h : k2 ≠ k) : attrLookup (setAttr l k2 v) k = attrLookup l k := by
  induction l with
  | nil => simp [setAttr, attrLookup_cons, attrLookup, h]
  | cons p rest ih =>
      by_cases h2 : p.1 == k2
      · have hp : p.1 ≠ k := by
          rw [beq_iff_eq] at h2
          rw [h2]; exact h
        simp [setAttr, h2, attrLookup_cons, hp, h]
      · simp [setAttr, h2, attrLookup_cons, ih]

theorem attrLookup_applyAttrs_notkey (d : Descriptor) :
    ∀ l k, (∀ p ∈ d, p.1 ≠ k) → attrLookup (applyAttrs l d) k = attrLookup l k := by
  induction d with
  | nil => intro l k _; rfl
  | cons p rest ih =>
      intro l k h
      show attrLookup (applyAttrs (setAttr l p.1 p.2) rest) k = attrLookup l k
      rw [ih _ _ (fun q hq => h q (List.mem_cons_of_mem _ hq)),
        attrLookup_setAttr_ne _ _ _ _ (h p (List.mem_cons_self _ _))]

theorem attrLookup_applyAttrs_mem (d : Descriptor) :
    ∀ l k v, (d.map Prod.fst).Nodup → (k, v) ∈ d →
      attrLookup (applyAttrs l d) k = some v := by
  induction d with
  | nil => intro l k v _ h; cases h
  | cons p rest ih =>
      intro l k v hnodup hmem
      rw [List.map_cons] at hnodup
      have hnd := List.nodup_cons.mp hnodup
      show attrLookup (applyAttrs (setAttr l p.1 p.2) rest) k = some v
      rcases List.mem_cons.mp hmem with heq | hmem2
      · have hk : p.1 = k := by rw [← heq]
        have hv : p.2 = v := by rw [← heq]
        have hnot : ∀ q ∈ rest, q.1 ≠ k := by
          intro q hq hcontra
          exact hnd.1 (hk ▸ hcontra ▸ List.mem_map_of_mem Prod.fst hq)
        rw [attrLookup_applyAttrs_notkey rest _ _ hnot, hk, hv, attrLookup_setAttr_self]
      · exact ih _ _ _ hnd.2 hmem2

theorem attrLookup_clean_none (l : List (String × JsValue)) (k : String)
    (hclean : ∀ p ∈ l, hasDunder p.1 = false) (hk : hasDunder k = true) :
    attrLookup l k = none := by
  induction l with
  | nil => rfl
  | cons p rest ih =>
      have hp : (p.1 == k) = false := by
        refine beq_eq_false_iff_ne.mpr (fun hcontra => ?_)
        have := hclean p (List.mem_cons_self _ _)
        rw [hcontra, hk] at this
        cases this
      rw [attrLookup_cons]
      simp only [hp, Bool.false_eq_true, if_false]
      exact ih (fun q hq => hclean q (List.mem_cons_of_mem _ hq))

/-! ## Element-store lemmas -/

theorem eid_find_map (l : List Elem) (f : Elem → Elem) (j : Nat)
    (hf : ∀ e, (f e).eid = e.eid) :
    (l.map f).find? (fun e => e.eid == j) = (l.find? (fun e => e.eid == j)).map f := by
  rw [List.find?_map]
  have hcomp : ((fun e => e.eid == j) ∘ f) = (fun e : Elem => e.eid == j) :=
    funext fun e => by simp [Function.comp, hf]
  rw [hcomp]

theorem elemById_modifyElem (s : Surface) (i j : Nat) (f : Elem → Elem)
    (hf : ∀ e, (f e).eid = e.eid) :
    elemById (modifyElem s i f) j
      = (elemById s j).map (fun e => if e.eid == i then f e else e) := by
  show (s.elems.map _).find? _ = _
  exact eid_find_map _ _ _ (fun e => by by_cases h : e.eid == i <;> simp [h, hf])

theorem elemById_detachEl (s : Surface) (i j : Nat) :
    elemById (detachEl s i) j
      = (elemById s j).map (fun e => { e with kids := e.kids.filter (fun c => c != i) }) := by
  show (s.elems.map _).find? _ = _
  exact eid_find_map _ _ _ (fun e => rfl)

theorem elemById_eid {s : Surface} {t : Nat} {e : Elem} (h : elemById s t = some e) :
    e.eid = t := by
  have := List.find?_some h
  simpa using this

/-- The attribute map of the element stored under an id. -/
def attrsAt (s : Surface) (j : Nat) : Option (List (String × JsValue)) :=
  (elemById s j).map (fun e => e.attrs)

theorem attrsAt_detachEl (s : Surface) (i j : Nat) :
    attrsAt (detachEl s i) j = attrsAt s j := by
  unfold attrsAt
  rw [elemById_detachEl]
  cases elemById s j <;> rfl

theorem attrsAt_appendKidToElem (s : Surface) (t i j : Nat) :
    attrsAt (appendKidToElem s t i) j = attrsAt s j := by
  unfold attrsAt appendKidToElem
  rw [elemById_modifyElem s t j (fun e => { e with kids := e.kids ++ [i] }) (fun e => rfl)]
  cases elemById s j with
  | none => rfl
  | some e =>
      by_cases h : e.eid = t <;> simp [h]

theorem attrsAt_modifyCalls (s : Surface) (t j : Nat) (u : UpdateCall) :
    attrsAt (modifyElem s t (fun e => { e with calls := e.calls ++ [u] })) j = attrsAt s j := by
  unfold attrsAt
  rw [elemById_modifyElem s t j (fun e => { e with calls := e.calls ++ [u] }) (fun e => rfl)]
  cases elemById s j with
  | none => rfl
  | some e =>
      by_cases h : e.eid = t <;> simp [h]

theorem attrsAt_runUpdates (us : List UpdateCall) :
    ∀ s t j, attrsAt (runUpdates s t us) j = attrsAt s j := by
  induction us with
  | nil => intro s t j; rfl
  | cons u rest ih =>
      intro s t j
      show attrsAt (runUpdates (modifyElem s t _) t rest) j = attrsAt s j
      rw [ih, attrsAt_modifyCalls]

theorem attrsAt_reparentEls (l : List String) :
    ∀ s t j, attrsAt (reparentEls s t l).1 j = attrsAt s j := by
  induction l with
  | nil => intro s t j; rfl
  | cons i rest ih =>
      intro s t j
      cases h : ((allElems s).filter (byId i)).head? with
      | none => simp [reparentEls, h]
      | some el =>
          simp only [reparentEls, h]
          rw [ih, attrsAt_appendKidToElem, attrsAt_detachEl]

theorem attrsAt_reparentStep (s : Surface) (t j : Nat) (d : Descriptor) :
    attrsAt (reparentStep s t d).1 j = attrsAt s j := by
  unfold reparentStep
  cases getElements d with
  | none => rfl
  | some l => exact attrsAt_reparentEls l s t j

theorem attrsAt_setAttrsOnElem (s : Surface) (t : Nat) (d : Descriptor) :
    attrsAt (setAttrsOnElem s t d) t = (attrsAt s t).map (fun l => applyAttrs l d) := by
  unfold attrsAt setAttrsOnElem
  rw [elemById_modifyElem s t t (fun e => { e with attrs := applyAttrs e.attrs d }) (fun e => rfl)]
  cases h : elemById s t with
  | none => rfl
  | some e =>
      have he := elemById_eid h
      simp [he]

theorem executeServerUpdates_attrs (s : Surface) (t : Nat) (d : Descriptor)
    (l : List (String × JsValue)) (ha : attrsAt s t = some l)
    (hrep : (reparentStep s t d).2 = none) :
    attrsAt (executeServerUpdates s t d).1 t
      = some (applyAttrs l (removePrivateAttributes d)) := by
  obtain ⟨s1, hs1⟩ : ∃ s1, reparentStep s t d = (s1, none) := by
    cases h : reparentStep s t d with
    | mk s1 err =>
        cases err with
        | none => exact ⟨s1, rfl⟩
        | some e => rw [h] at hrep; cases hrep
  have ha1 : attrsAt s1 t = some l := by
    have h2 := attrsAt_reparentStep s t t d
    rw [hs1] at h2
    rw [← h2] at ha
    exact ha
  unfold executeServerUpdates
  rw [hs1]
  cases hu : getUpdates d with
  | none => simp only []; rw [attrsAt_setAttrsOnElem, ha1]; rfl
  | some us => simp only []; rw [attrsAt_runUpdates, attrsAt_setAttrsOnElem, ha1]; rfl

theorem executeServerUpdates_no_updates_err (s : Surface) (t : Nat) (d : Descriptor)
    (hrep : (reparentStep s t d).2 = none) (hu : getUpdates d = none) :
    (executeServerUpdates s t d).2 = some SvgError.undefinedUpdates := by
  obtain ⟨s1, hs1⟩ : ∃ s1, reparentStep s t d = (s1, none) := by
    cases h : reparentStep s t d with
    | mk s1 err =>
        cases err with
        | none => exact ⟨s1, rfl⟩
        | some e => rw [h] at hrep; cases hrep
  unfold executeServerUpdates
  rw [hs1, hu]

theorem applyAttrs_stripped_none (d : Descriptor) (l : List (String × JsValue)) (k : String)
    (hclean : ∀ p ∈ l, hasDunder p.1 = false) (hk : hasDunder k = true) :
    attrLookup (applyAttrs l (removePrivateAttributes d)) k = none := by
  have hnot : ∀ p ∈ removePrivateAttributes d, p.1 ≠ k := by
    intro p hp hcontra
    have hp2 : p ∈ d.filter (fun q => !(hasDunder q.1)) := hp
    have h1 : (!(hasDunder p.1)) = true := (List.mem_filter.mp hp2).2
    rw [hcontra, hk] at h1
    cases h1
  rw [attrLookup_applyAttrs_notkey _ _ _ hnot]
  exact attrLookup_clean_none l k hclean hk

theorem applyAttrs_plain_mem (d : Descriptor) (l : List (String × JsValue)) (k : String)
    (v : JsValue) (hnodup : (d.map Prod.fst).Nodup) (hmem : (k, v) ∈ d)
    (hkf : hasDunder k = false) :
    attrLookup (applyAttrs l (removePrivateAttributes d)) k = some v := by
  refine attrLookup_applyAttrs_mem _ _ _ _ ?_ ?_
  · exact hnodup.sublist (List.Sublist.map Prod.fst (List.filter_sublist d))
  · exact List.mem_filter.mpr ⟨hmem, by simp [hkf]⟩

/-! ## Descriptor stripping (C6) -/

/-- C6: after `_executeServerUpdates` applies a descriptor to an element (one
whose attributes carried no double-underscore key, as every element this
pipeline produces), no descriptor key containing a double underscore appears
as an attribute of the element, and every plain key appears with its given
value. The descriptor has object semantics (no duplicate keys) and its
`__elements` step succeeds. -/
theorem C6_descriptor_stripping (s : Surface) (target : Nat) (d : Descriptor)
    (l : List (String × JsValue))
    (ha : attrsAt s target = some l)
    (hclean : ∀ p ∈ l, hasDunder p.1 = false)
    (hnodup : (d.map Prod.fst).Nodup)
    (hrep : (reparentStep s target d).2 = none) :
    ∃ a2, attrsAt (executeServerUpdates s target d).1 target = some a2
      ∧ (∀ k, hasDunder k = true → attrLookup a2 k = none)
      ∧ (∀ k v, (k, v) ∈ d → hasDunder k = false → attrLookup a2 k = some v) := by
  refine ⟨applyAttrs l (removePrivateAttributes d),
    executeServerUpdates_attrs s target d l ha hrep, ?_, ?_⟩
  · intro k hk
    exact applyAttrs_stripped_none d l k hclean hk
  · intro k v hmem hkf
    exact applyAttrs_plain_mem d l k v hnodup hmem hkf

def sampleDescriptor : Descriptor :=
  [(ctorKey, JsValue.str ("rect")),
   (ctorArgsKey, JsValue.cargs []),
   (updatesKey, JsValue.upds []),
   (("fill"), JsValue.str ("red")),
   (("a__b"), JsValue.str ("x"))]

/-- Concrete run of `C6_descriptor_stripping`: applying a descriptor with
`__constructor`, `__constructorArgs`, `__updates`, a plain `fill` key and a
stray `a__b` key leaves an element carrying `fill` but none of the
double-underscore keys. -/
theorem C6_descriptor_stripping_witness :
    ∃ a2, attrsAt (executeServerUpdates sampleSurface 0 sampleDescriptor).1 0 = some a2
      ∧ (∀ k, hasDunder k = true → attrLookup a2 k = none)
      ∧ (∀ k v, (k, v) ∈ sampleDescriptor → hasDunder k = false →
          attrLookup a2 k = some v) :=
  C6_descriptor_stripping sampleSurface 0 sampleDescriptor
    [(idAttr, JsValue.str ("r1"))] rfl (by decide) (by decide) rfl

/-! ## Missing `__updates` breaks atomicity (C9) -/

theorem elemById_constructStep_root (s : Surface) (cname : String) (cargs : List String)
    (h : elemById s s.nextId = none) :
    elemById (constructStep s ParentRef.root cname cargs) s.nextId
      = some (mkElem s.nextId cname cargs) := by
  show ((s.elems ++ [mkElem s.nextId cname cargs]).find? (fun e => e.eid == s.nextId)) = _
  rw [List.find?_append]
  have h2 : s.elems.find? (fun e => e.eid == s.nextId) = none := h
  rw [h2]
  simp [List.find?, mkElem]

theorem attrsAt_constructStep_root (s : Surface) (cname : String) (cargs : List String)
    (h : elemById s s.nextId = none) :
    attrsAt (constructStep s ParentRef.root cname cargs) s.nextId = some [] := by
  unfold attrsAt
  rw [elemById_constructStep_root s cname cargs h]
  rfl

/-- C9: a descriptor accepted by `add` (resolvable `__constructor`) that
carries no `__updates` key makes the pipeline throw (reading `length` of the
absent list) — but only after the element has been created and the plain
attributes applied, so the surface is mutated despite the error: atomicity
does not hold. -/
theorem C9_missing_updates_not_atomic (s : Surface) (d : Descriptor) (cname : String)
    (h1 : getCtorName d = some cname)
    (h2 : s.ctors.contains cname = true)
    (h3 : getUpdates d = none)
    (h4 : (reparentStep (constructStep s ParentRef.root cname ((getCtorArgs d).getD []))
        s.nextId d).2 = none)
    (h5 : (d.map Prod.fst).Nodup)
    (h6 : elemById s s.nextId = none) :
    (createElement s d ParentRef.root).2 = some SvgError.undefinedUpdates
    ∧ ∃ a2, attrsAt (createElement s d ParentRef.root).1 s.nextId = some a2
        ∧ ∀ k v, (k, v) ∈ d → hasDunder k = false → attrLookup a2 k = some v := by
  have h2m : cname ∈ s.ctors := by simpa using h2
  have hce : createElement s d ParentRef.root
      = executeServerUpdates (constructStep s ParentRef.root cname ((getCtorArgs d).getD []))
        s.nextId d := by
    simp [createElement, h1, h2m]
  rw [hce]
  refine ⟨executeServerUpdates_no_updates_err _ _ _ h4 h3,
    applyAttrs [] (removePrivateAttributes d),
    executeServerUpdates_attrs _ _ _ [] (attrsAt_constructStep_root s cname _ h6) h4, ?_⟩
  intro k v hmem hkf
  exact applyAttrs_plain_mem d [] k v h5 hmem hkf

def sampleChild : Elem :=
  { eid := 0, ctorName := "circle", ctorArgs := [], attrs := [(idAttr, JsValue.str ("c1"))],
    calls := [], kids := [] }

def sampleSurface9 : Surface :=
  { elems := [sampleChild], rootKids := [0], ctors := [("rect")], nextId := 1 }

def sampleDescriptor9 : Descriptor :=
  [(ctorKey, JsValue.str ("rect")),
   (elementsKey, JsValue.ids [("c1")]),
   (("fill"), JsValue.str ("red"))]

/-- Concrete run of `C9_missing_updates_not_atomic`: an `add` descriptor
without `__updates` throws, yet the new element exists with `fill` applied,
the referenced `c1` element has been reparented under it (its child list is
`[0]`), and `c1` has left the root (root children are `[1]`). -/
theorem C9_missing_updates_not_atomic_witness :
    ((createElement sampleSurface9 sampleDescriptor9 ParentRef.root).2
        = some SvgError.undefinedUpdates
      ∧ ∃ a2, attrsAt (createElement sampleSurface9 sampleDescriptor9 ParentRef.root).1 1
          = some a2
        ∧ ∀ k v, (k, v) ∈ sampleDescriptor9 → hasDunder k = false →
            attrLookup a2 k = some v)
    ∧ (elemById (createElement sampleSurface9 sampleDescriptor9 ParentRef.root).1 1).map
        (fun e => e.kids) = some [0]
    ∧ (createElement sampleSurface9 sampleDescriptor9 ParentRef.root).1.rootKids = [1] :=
  ⟨C9_missing_updates_not_atomic sampleSurface9 sampleDescriptor9 ("rect")
      rfl (by decide) rfl (by decide) (by decide) rfl,
   by decide, by decide⟩

/-! ## Shape instances bypass the descriptor pipeline (C10) -/

theorem filter_ne_self (l : List Nat) (i : Nat) (h : i ∉ l) :
    l.filter (fun c => c != i) = l :=
  List.filter_eq_self.mpr (fun c hc => by
    simp only [bne_iff_ne, ne_eq, decide_eq_true_eq]
    exact fun hcon => h (hcon ▸ hc))

theorem map_detach_id (l : List Elem) (i : Nat) (h : ∀ x ∈ l, i ∉ x.kids) :
    l.map (fun x => { x with kids := x.kids.filter (fun c => c != i) }) = l := by
  induction l with
  | nil => rfl
  | cons x rest ih =>
      rw [List.map_cons, filter_ne_self x.kids i (h x (List.mem_cons_self _ _)),
        ih (fun y hy => h y (List.mem_cons_of_mem _ hy))]

theorem find?_snoc_self (l : List Elem) (e : Elem)
    (h : l.find? (fun x => x.eid == e.eid) = none) :
    (l ++ [e]).find? (fun x => x.eid == e.eid) = some e := by
  rw [List.find?_append, h]
  simp [List.find?]

/-- C10: handing `add` a `Shape` instance (rather than a plain attributes
object) appends it directly as the last child of the resolved parent: no
error, no `__constructor` requirement, and the element record — its
attributes and call log — is taken over untouched (no stripping, no applied
attributes, no post-construction updates). -/
theorem C10_shape_added_directly (s : Surface) (e : Elem) (pid : Option String)
    (parent : ParentRef)
    (hp : getParentElement s pid = Except.ok parent)
    (h1 : elemById s e.eid = none)
    (h2 : e.eid ∉ s.rootKids)
    (h3 : ∀ x ∈ s.elems, e.eid ∉ x.kids)
    (h4 : e.eid ∉ e.kids)
    (h5 : parent = ParentRef.root ∨ ∃ pe, parent = ParentRef.el pe
        ∧ elemById s pe.eid = some pe ∧ pe.eid ≠ e.eid) :
    (addAction s (AddArg.shape e) pid).2 = none
    ∧ elemById (addAction s (AddArg.shape e) pid).1 e.eid = some e
    ∧ kidsOf (addAction s (AddArg.shape e) pid).1 parent = kidsOf s parent ++ [e.eid] := by
  have haa : addAction s (AddArg.shape e) pid = (addShape s parent e, none) := by
    simp [addAction, hp]
  have hins : insertIfAbsent s e = { s with elems := s.elems ++ [e] } := by
    have hn : (s.elems.find? (fun x => x.eid == e.eid)).isSome = false := by
      have hh : s.elems.find? (fun x => x.eid == e.eid) = none := h1
      rw [hh]
      rfl
    simp [insertIfAbsent, hn]
  have hdet : detachEl (insertIfAbsent s e) e.eid = { s with elems := s.elems ++ [e] } := by
    rw [hins]
    unfold detachEl
    simp only [Surface.mk.injEq]
    refine ⟨?_, ?_, trivial, trivial⟩
    · rw [List.map_append, map_detach_id s.elems e.eid h3, List.map_cons, List.map_nil,
        filter_ne_self e.kids e.eid h4]
    · exact filter_ne_self s.rootKids e.eid h2
  have hfind : ({ s with elems := s.elems ++ [e] } : Surface).elems.find?
      (fun x => x.eid == e.eid) = some e := find?_snoc_self s.elems e h1
  rw [haa]
  refine ⟨rfl, ?_, ?_⟩
  · show elemById (addShape s parent e) e.eid = some e
    unfold addShape
    rw [hdet]
    rcases h5 with hroot | ⟨pe, hpe, hpe2, hpe3⟩
    · subst hroot
      exact hfind
    · subst hpe
      rw [show appendKid { s with elems := s.elems ++ [e] } (ParentRef.el pe) e.eid
          = modifyElem { s with elems := s.elems ++ [e] } pe.eid
            (fun x => { x with kids := x.kids ++ [e.eid] }) from rfl,
        elemById_modifyElem _ pe.eid e.eid (fun x => { x with kids := x.kids ++ [e.eid] })
          (fun x => rfl)]
      have : elemById { s with elems := s.elems ++ [e] } e.eid = some e := hfind
      rw [this]
      have hne : (e.eid == pe.eid) = false := beq_eq_false_iff_ne.mpr (fun hc => hpe3 hc.symm)
      simp only [Option.map, hne, Bool.false_eq_true, if_false]
  · show kidsOf (addShape s parent e) parent = kidsOf s parent ++ [e.eid]
    unfold addShape
    rw [hdet]
    rcases h5 with hroot | ⟨pe, hpe, hpe2, hpe3⟩
    · subst hroot
      rfl
    · subst hpe
      have hpefind : elemById { s with elems := s.elems ++ [e] } pe.eid = some pe := by
        show (s.elems ++ [e]).find? (fun x => x.eid == pe.eid) = some pe
        rw [List.find?_append]
        have hh : s.elems.find? (fun x => x.eid == pe.eid) = some pe := hpe2
        rw [hh]
        rfl
      rw [show appendKid { s with elems := s.elems ++ [e] } (ParentRef.el pe) e.eid
          = modifyElem { s with elems := s.elems ++ [e] } pe.eid
            (fun x => { x with kids := x.kids ++ [e.eid] }) from rfl]
      show (match elemById (modifyElem _ pe.eid _) pe.eid with
        | some x => x.kids
        | none => []) = kidsOf s (ParentRef.el pe) ++ [e.eid]
      rw [elemById_modifyElem _ pe.eid pe.eid (fun x => { x with kids := x.kids ++ [e.eid] })
        (fun x => rfl), hpefind]
      have hself : (pe.eid == pe.eid) = true := beq_self_eq_true _
      simp only [Option.map, hself, if_true]
      show pe.kids ++ [e.eid]
        = (match elemById s pe.eid with
            | some x => x.kids
            | none => []) ++ [e.eid]
      rw [hpe2]

def shapeElem : Elem :=
  { eid := 5, ctorName := "rect", ctorArgs := [], attrs := [(("fill"), JsValue.str ("blue"))],
    calls := [], kids := [] }

/-- Concrete run of `C10_shape_added_directly`: adding a `Shape` instance to
the sample surface appends it as the last root child, with its attribute map
taken over as-is and no error raised. -/
theorem C10_shape_added_directly_witness :
    (addAction sampleSurface (AddArg.shape shapeElem) none).2 = none
    ∧ elemById (addAction sampleSurface (AddArg.shape shapeElem) none).1 5 = some shapeElem
    ∧ kidsOf (addAction sampleSurface (AddArg.shape shapeElem) none).1 ParentRef.root
        = [0, 5] :=
  C10_shape_added_directly sampleSurface shapeElem none ParentRef.root
    rfl rfl (by decide) (by decide) (by decide) (Or.inl rfl)

end VcfSvg
